import Mathlib

/-!
Shallow embedding of the `gomaasapi` MAAS API client (`client.go`, `maas.go`).

The Go code is pure request composition plus one HTTP round trip.  The
embedding makes the external effects explicit:

* the HTTP transport (`http.Client.Do` + `ioutil.ReadAll`) is a parameter
  of type `Transport`, an oracle mapping the signed request to the exchange
  outcome (connection failure, body-read failure, or a status/body result);
* `net/url.Parse` (used only by the client factories) is a parameter, since
  URL-string parsing is an external stdlib collaborator whose details no
  claim depends on;
* the Go in-place mutations (`Post` overwrites the caller's `URL.RawQuery`,
  `Get` writes into the caller's `url.Values` map) are returned explicitly
  as the `uriAfter` / `parametersAfter` components of the results.

Strings are treated at the level of characters; the Go code only ever
splits and escapes ASCII, where byte-level and character-level processing
coincide.
-/

set_option autoImplicit false

namespace Gomaasapi

/-! ### strings.Split (single-character separator) -/

/-- Core of Go `strings.Split` for a one-character separator: split the
character list at every occurrence of `sep`, keeping empty fields. -/
def splitChar (sep : Char) : List Char → List (List Char)
  | [] => [[]]
  | c :: cs =>
    if c = sep then [] :: splitChar sep cs
    else
      match splitChar sep cs with
      | [] => [[c]]
      | f :: rest => (c :: f) :: rest

/-- Models Go `strings.Split(s, sep)` for a single-character separator
(the only form the source uses: `strings.Split(apiKey, ":")`). -/
def stringsSplit (s : String) (sep : Char) : List String :=
  (splitChar sep s.data).map (fun l => ⟨l⟩)

/-- Go `base[:strings.LastIndex(base, "/")+1]`: the prefix of `s` up to and
including its last slash (empty when `s` has no slash). -/
def uptoLastSlash (s : String) : String :=
  ⟨(s.data.reverse.dropWhile (fun c => c != '/')).reverse⟩

/-- Join a list of strings with a separator, writing nothing for the empty
list (mirrors the buffer-append loops in `net/url`). -/
def joinSep (sep : String) : List String → String
  | [] => ""
  | [x] => x
  | x :: y :: xs => x ++ sep ++ joinSep sep (y :: xs)

/-! ### net/url query escaping and url.Values -/

/-- Uppercase hexadecimal digit, as written by `net/url` percent-escaping. -/
def hexUpperChar (n : Nat) : Char :=
  if n < 10 then Char.ofNat (48 + n) else Char.ofNat (55 + n)

/-- Models `net/url` escaping of one character in query position
(`shouldEscape(c, encodeQueryComponent)`): alphanumerics and `-_.~` are
kept, space becomes `+`, everything else becomes `%XX`.  (Go escapes
UTF-8 bytes; this embedding covers the ASCII range the code exercises.) -/
def queryEscapeChar (c : Char) : List Char :=
  if c = ' ' then ['+']
  else if c.isAlphanum ∨ c = '-' ∨ c = '_' ∨ c = '.' ∨ c = '~' then [c]
  else ['%', hexUpperChar (c.toNat / 16), hexUpperChar (c.toNat % 16)]

/-- Models Go `url.QueryEscape`. -/
def queryEscape (s : String) : String :=
  ⟨(s.data.map queryEscapeChar).flatten⟩

/-- Go `url.Values`: a map from keys to lists of values, embedded as an
association list with unique keys. -/
abbrev Values := List (String × List String)

/-- Insert an entry into a key-sorted association list (stable insertion;
Go sorts the map's keys with `sort.Strings` before encoding). -/
def insertByKey (x : String × List String) : Values → Values
  | [] => [x]
  | y :: ys => if x.1 ≤ y.1 then x :: y :: ys else y :: insertByKey x ys

/-- Sort an association list by key (models the `sort.Strings(keys)` step
of `url.Values.Encode`). -/
def sortByKey (v : Values) : Values :=
  v.foldr insertByKey []

/-- Models Go `url.Values.Get`: empty string when the key is absent or has
no values, otherwise the first value. -/
def Values.Get (v : Values) (key : String) : String :=
  match v.lookup key with
  | some (x :: _) => x
  | _ => ""

/-- Models Go `url.Values.Set`: `v[key] = []string{value}` — replace any
existing entry for `key` by the single given value. -/
def Values.Set (v : Values) (key value : String) : Values :=
  (v.filter (fun p => p.1 != key)) ++ [(key, [value])]

/-- Models Go `url.Values.Encode`: keys sorted, each key/value pair escaped
and written as `k=v`, pairs joined by `&`. -/
def Values.Encode (v : Values) : String :=
  joinSep "&"
    (((sortByKey v).map
      (fun p => p.2.map (fun x => queryEscape p.1 ++ "=" ++ queryEscape x))).flatten)

/-! ### net/url URL model and reference resolution -/

/-- Models the `net/url.URL` struct, restricted to the components the
client exercises (no `User`/`Opaque` parts). -/
structure URL where
  Scheme : String
  Host : String
  Path : String
  RawQuery : String
  Fragment : String
deriving DecidableEq

/-- Models `net/url.resolvePath` (RFC 3986 §5.2 merge + dot-segment
removal): merge `ref` onto `base`, then process `.` and `..` segments with
a stack, forcing a leading slash and keeping a trailing slash after a
final dot segment. -/
def resolvePath (base ref : String) : String :=
  let full :=
    if ref = "" then base
    else if ¬ ref.startsWith "/" then uptoLastSlash base ++ ref
    else ref
  if full = "" then ""
  else
    let segs := stringsSplit full '/'
    let segs := if segs.head? = some "" then segs.tail else segs
    let kept := segs.foldl
      (fun acc s =>
        if s = "." then acc
        else if s = ".." then acc.dropLast
        else acc ++ [s]) ([] : List String)
    let kept :=
      if segs.getLast? = some "." ∨ segs.getLast? = some ".." then kept ++ [""] else kept
    "/" ++ joinSep "/" kept

/-- Models `(*net/url.URL).ResolveReference` for URLs without
`User`/`Opaque` parts: an absolute reference wins outright; otherwise the
base contributes scheme, host, and (for empty path-and-query references)
query and fragment, and paths are merged via `resolvePath`. -/
def URL.resolveReference (u ref : URL) : URL :=
  let url := if ref.Scheme = "" then { ref with Scheme := u.Scheme } else ref
  if ref.Scheme ≠ "" ∨ ref.Host ≠ "" then
    { url with Path := resolvePath ref.Path "" }
  else
    let url :=
      if ref.Path = "" ∧ ref.RawQuery = "" then
        let url := { url with RawQuery := u.RawQuery }
        if ref.Fragment = "" then { url with Fragment := u.Fragment } else url
      else url
    { url with Host := u.Host, Path := resolvePath u.Path ref.Path }

/-! ### OAuth signers (`OAuthSigner` interface; `anonSigner` from client.go) -/

/-- The OAuth token struct.  Its declaration lives in the repository's
oauth source file, which is not among the provided files; the four fields
are exactly those assigned by `NewAuthenticatedClient` in client.go. -/
structure OAuthToken where
  ConsumerKey : String
  ConsumerSecret : String
  TokenKey : String
  TokenSecret : String
deriving DecidableEq

/-- The two implementations of the Go `OAuthSigner` interface: the
anonymous signer of client.go and the PLAINTEXT signer of the (missing)
oauth source file. -/
inductive OAuthSigner where
  | anonSigner
  | plainTextOAuthSigner (token : OAuthToken) (realm : String)
deriving DecidableEq

/-- Models `http.Request`, restricted to what the client builds: method,
structured URL, headers, optional body (a byte string). -/
structure Request where
  Method : String
  URL : Gomaasapi.URL
  Header : List (String × String)
  Body : Option String
deriving DecidableEq

/-- Models `http.Header.Set`: replace any existing values for the key. -/
def Request.setHeader (r : Request) (key value : String) : Request :=
  { r with Header := (r.Header.filter (fun p => p.1 != key)) ++ [(key, value)] }

/-- Modelled from the spec: the PLAINTEXT `oauth_signature` value — the
consumer secret and token secret joined by `%26`, with no per-request
hashing (spec §4.3, §6).  The signing code lives in the repository's
oauth source file, which is not among the provided files. -/
def plainTextSignature (token : OAuthToken) : String :=
  token.ConsumerSecret ++ "%26" ++ token.TokenSecret

/-- Modelled from the spec: the `Authorization` header value attached by
the PLAINTEXT signer (spec §6): consumer key, token key, signature method,
signature, version and realm, in a fixed deterministic layout. -/
def plainTextAuthorizationValue (token : OAuthToken) (realm : String) : String :=
  "OAuth oauth_consumer_key=\"" ++ token.ConsumerKey ++
  "\", oauth_token=\"" ++ token.TokenKey ++
  "\", oauth_signature_method=\"PLAINTEXT\", oauth_signature=\"" ++
  plainTextSignature token ++
  "\", oauth_version=\"1.0\", realm=\"" ++ realm ++ "\""

/-- `OAuthSign`: the anonymous signer (client.go lines 97-99) returns `nil`
and touches nothing; the PLAINTEXT signer (modelled from the spec, §4.3)
attaches the `Authorization` header and must not mutate method, URL or
body.  The result pairs the (possibly mutated) request with the returned
error. -/
def OAuthSigner.OAuthSign : OAuthSigner → Request → Request × Option String
  | .anonSigner, request => (request, none)
  | .plainTextOAuthSigner token realm, request =>
    (request.setHeader "Authorization" (plainTextAuthorizationValue token realm), none)

/-! ### Errors, transport oracle, dispatch -/

/-- The error values the embedded client can return, tagged by the source
site that constructs them (Go returns distinct `error` values from these
distinct sites). -/
inductive Err where
  | invalidArgument (msg : String)
  | parse (msg : String)
  | transport (msg : String)
  | api (msg : String)
  | requestBuild (msg : String)
deriving DecidableEq

/-- Outcome of one HTTP exchange: `httpClient.Do` fails, `Do` succeeds but
`ioutil.ReadAll(response.Body)` fails, or the full body is read together
with the numeric status code and the status line text. -/
inductive TransportOutcome where
  | doError (msg : String)
  | readError (msg : String)
  | success (StatusCode : Nat) (Status : String) (body : String)
deriving DecidableEq

/-- The HTTP transport as an oracle: what the network does with the
(signed) request that is handed to `httpClient.Do`. -/
abbrev Transport := Request → TransportOutcome

/-- The pair `([]byte, error)` returned by `dispatchRequest`, plus the
list of requests actually handed to the transport (empty when no network
activity happened, a singleton once `Do` was invoked). -/
structure DispatchResult where
  body : Option String
  error : Option Err
  sent : List Request
deriving DecidableEq

/-- Models the `Client` struct of client.go. -/
structure Client where
  BaseURL : Gomaasapi.URL
  Signer : OAuthSigner
deriving DecidableEq

/-- Models `Client.dispatchRequest` (client.go lines 22-37): sign the
request (the sign error is discarded by the source — only the mutation is
kept), run it, read the body, then classify `StatusCode/100 == 2` as
success and anything else as an API error carrying the status line. -/
def Client.dispatchRequest (client : Client) (transport : Transport) (request : Request) :
    DispatchResult :=
  let signed := (client.Signer.OAuthSign request).1
  match transport signed with
  | .doError msg => { body := none, error := some (.transport msg), sent := [signed] }
  | .readError msg => { body := none, error := some (.transport msg), sent := [signed] }
  | .success code status body =>
    if code / 100 ≠ 2 then
      { body := some body,
        error := some (.api ("Error requesting the MAAS server: " ++ status ++ ".")),
        sent := [signed] }
    else
      { body := some body, error := none, sent := [signed] }

/-- Models `Client.GetURL` (client.go lines 39-41). -/
def Client.GetURL (client : Client) (URI : Gomaasapi.URL) : Gomaasapi.URL :=
  client.BaseURL.resolveReference URI

/-- Models `http.NewRequest`, building the request from the structured
URL.  (The Go code serializes `queryUrl.String()` and `NewRequest`
re-parses it; a string produced by a `url.URL` value always re-parses, so
the error branch is kept only for shape and is never taken.) -/
def newRequest (method : String) (u : Gomaasapi.URL) (body : Option String) :
    Except String Request :=
  .ok { Method := method, URL := u, Header := [], Body := body }

/-- The error message built at client.go line 46.  The Go `fmt.Sprintf`
call is given no argument for its single `%s` verb, so the verb renders
as the literal `%!s(MISSING)`. -/
def reservedParamMessage : String :=
  "The parameters contain a value for " ++ "\x27%!s(MISSING)\x27" ++
  " which is reserved parameter."

/-! ### The four verb methods -/

/-- Result of `Client.Get`: the `([]byte, error)` pair, the requests the
transport saw, and the caller's `parameters` map after the call (Go
mutates it in place via `parameters.Set`). -/
structure GetResult where
  body : Option String
  error : Option Err
  sent : List Request
  parametersAfter : Values
deriving DecidableEq

/-- Models `Client.Get` (client.go lines 43-59): reject a non-empty `op`
parameter value, otherwise inject a non-empty `operation` under `op`,
resolve the URI against the base URL, overwrite the query with the
encoded parameters, and dispatch a GET with no body. -/
def Client.Get (client : Client) (transport : Transport) (URI : Gomaasapi.URL)
    (operation : String) (parameters : Values) : GetResult :=
  let opParameter := Values.Get parameters "op"
  if opParameter ≠ "" then
    { body := none, error := some (.invalidArgument reservedParamMessage),
      sent := [], parametersAfter := parameters }
  else
    let parameters := if operation ≠ "" then Values.Set parameters "op" operation else parameters
    let queryUrl := client.GetURL URI
    let queryUrl := { queryUrl with RawQuery := Values.Encode parameters }
    match newRequest "GET" queryUrl none with
    | .error e =>
      { body := none, error := some (.requestBuild e), sent := [], parametersAfter := parameters }
    | .ok request =>
      let d := client.dispatchRequest transport request
      { body := d.body, error := d.error, sent := d.sent, parametersAfter := parameters }

/-- Models `Client.nonIdempotentRequest` (client.go lines 62-70): resolve
the URI, put the encoded parameters in the body, set the form content
type, dispatch. -/
def Client.nonIdempotentRequest (client : Client) (transport : Transport) (method : String)
    (URI : Gomaasapi.URL) (parameters : Values) : DispatchResult :=
  let URL := client.GetURL URI
  match newRequest method URL (some (Values.Encode parameters)) with
  | .error e => { body := none, error := some (.requestBuild e), sent := [] }
  | .ok request =>
    let request := request.setHeader "Content-Type" "application/x-www-form-urlencoded"
    client.dispatchRequest transport request

/-- Result of `Client.Post`: the dispatch result plus the caller's URI
after the call (Go overwrites `URI.RawQuery` through the pointer). -/
structure PostResult where
  body : Option String
  error : Option Err
  sent : List Request
  uriAfter : Gomaasapi.URL
deriving DecidableEq

/-- Models `Client.Post` (client.go lines 72-76): overwrite the caller's
`URI.RawQuery` with the encoded `op` selector, then issue the
non-idempotent POST. -/
def Client.Post (client : Client) (transport : Transport) (URI : Gomaasapi.URL)
    (operation : String) (parameters : Values) : PostResult :=
  let queryParams : Values := [("op", [operation])]
  let URI := { URI with RawQuery := Values.Encode queryParams }
  let d := client.nonIdempotentRequest transport "POST" URI parameters
  { body := d.body, error := d.error, sent := d.sent, uriAfter := URI }

/-- Models `Client.Put` (client.go lines 78-80). -/
def Client.Put (client : Client) (transport : Transport) (URI : Gomaasapi.URL)
    (parameters : Values) : DispatchResult :=
  client.nonIdempotentRequest transport "PUT" URI parameters

/-- Result of `Client.Delete`: only an error, plus the transport log. -/
structure DeleteResult where
  error : Option Err
  sent : List Request
deriving DecidableEq

/-- Models `Client.Delete` (client.go lines 82-93): DELETE with an empty
body; the dispatched body is discarded and only the error is returned. -/
def Client.Delete (client : Client) (transport : Transport) (URI : Gomaasapi.URL) :
    DeleteResult :=
  let URL := client.GetURL URI
  match newRequest "DELETE" URL (some "") with
  | .error e => { error := some (.requestBuild e), sent := [] }
  | .ok request =>
    let d := client.dispatchRequest transport request
    match d.error with
    | some err2 => { error := some err2, sent := d.sent }
    | none => { error := none, sent := d.sent }

/-! ### Client factories -/

/-- Models `NewAnonymousClient` (client.go lines 105-111); `url.Parse` is
the supplied external parsing oracle. -/
def NewAnonymousClient (parseURL : String → Except String Gomaasapi.URL)
    (BaseURL : String) : Except Err Client :=
  match parseURL BaseURL with
  | .error e => .error (.parse e)
  | .ok parsedBaseURL => .ok { Signer := .anonSigner, BaseURL := parsedBaseURL }

/-- Modelled from the spec: `NewPLAINTEXTOAuthSigner` lives in the
repository's oauth source file, which is not among the provided files.
Per spec §4.3 it wraps the read-only token and realm into the Credentialed
signer; its inputs here are structurally complete strings, so construction
succeeds. -/
def NewPLAINTEXTOAuthSigner (token : OAuthToken) (realm : String) :
    Except Err OAuthSigner :=
  .ok (.plainTextOAuthSigner token realm)

/-- The error message built at client.go line 119. -/
def invalidAPIKeyMessage : String :=
  "Invalid API key. The format of the key must be \"<consumer secret>:<token key>:<token secret>\"."

/-- Models `NewAuthenticatedClient` (client.go lines 116-139): split the
key on `:`; anything but exactly three fields is an invalid-argument
failure; otherwise build the token (consumer secret forced empty), the
PLAINTEXT signer, parse the base URL, and compose the client.  (The Go
code checks `len(elements) != 3` and then indexes elements 0..2; the
three-element pattern is the same test.) -/
def NewAuthenticatedClient (parseURL : String → Except String Gomaasapi.URL)
    (BaseURL : String) (apiKey : String) : Except Err Client :=
  match stringsSplit apiKey ':' with
  | [e0, e1, e2] =>
    let token : OAuthToken :=
      { ConsumerKey := e0, ConsumerSecret := "", TokenKey := e1, TokenSecret := e2 }
    match NewPLAINTEXTOAuthSigner token "MAAS API" with
    | .error e => .error e
    | .ok signer =>
      match parseURL BaseURL with
      | .error e => .error (.parse e)
      | .ok parsedBaseURL => .ok { Signer := signer, BaseURL := parsedBaseURL }
  | _ => .error (.invalidArgument invalidAPIKeyMessage)

/-! ### Concrete fixtures used by witnesses and counterexamples -/

/-- A fixed absolute base URL, as a test MAAS endpoint. -/
def url₀ : Gomaasapi.URL :=
  { Scheme := "http", Host := "example.com", Path := "/MAAS/api/1.0/",
    RawQuery := "", Fragment := "" }

/-- A fixed relative resource URI. -/
def uri₀ : Gomaasapi.URL :=
  { Scheme := "", Host := "", Path := "nodes/", RawQuery := "", Fragment := "" }

/-- An anonymous client over `url₀`. -/
def client₀ : Client := { BaseURL := url₀, Signer := .anonSigner }

/-- A transport whose exchange always completes with the given status and
body (a test server fixed to one response). -/
def constSuccess (code : Nat) (status body : String) : Transport :=
  fun _ => .success code status body

/-- A transport on which `httpClient.Do` always fails. -/
def constDoError (msg : String) : Transport :=
  fun _ => .doError msg

/-- A transport on which the exchange starts but reading the response body
always fails. -/
def constReadError (msg : String) : Transport :=
  fun _ => .readError msg

/-- A `url.Parse` oracle that always succeeds with the given URL. -/
def parseURLOk (u : Gomaasapi.URL) : String → Except String Gomaasapi.URL :=
  fun _ => .ok u

/-! ### Helper lemmas -/

theorem splitChar_ne_nil (sep : Char) (l : List Char) : splitChar sep l ≠ [] := by
  induction l with
  | nil => simp [splitChar]
  | cons c cs ih =>
    simp only [splitChar]
    split
    · simp
    · cases h : splitChar sep cs <;> simp

theorem splitChar_length (sep : Char) (l : List Char) :
    (splitChar sep l).length = l.count sep + 1 := by
  induction l with
  | nil => simp [splitChar]
  | cons c cs ih =>
    simp only [splitChar]
    by_cases hc : c = sep
    · simp [hc, List.count_cons, ih]
    · cases h : splitChar sep cs with
      | nil => exact absurd h (splitChar_ne_nil sep cs)
      | cons f rest =>
        rw [h] at ih
        simp only [hc, if_false, List.length_cons, List.count_cons]
        simp only [List.length_cons] at ih
        have : (cs.count sep + if c == sep then 1 else 0) = cs.count sep := by
          simp [hc]
        omega

theorem stringsSplit_length (s : String) (sep : Char) :
    (stringsSplit s sep).length = s.data.count sep + 1 := by
  simp [stringsSplit, splitChar_length]

/-- Signing never changes the method, URL or body of a request (the
anonymous signer changes nothing; the PLAINTEXT signer only sets a
header). -/
theorem OAuthSign_preserves_request (s : OAuthSigner) (r : Request) :
    ((s.OAuthSign r).1.Method = r.Method) ∧ ((s.OAuthSign r).1.URL = r.URL) ∧
    ((s.OAuthSign r).1.Body = r.Body) := by
  cases s <;> simp [OAuthSigner.OAuthSign, Request.setHeader]

/-- The header-list shape of `Header.Set` keeps lookups of other keys. -/
theorem lookup_filterne_append_ne {β : Type} (k q : String) (v : β)
    (l : List (String × β)) (hne : q ≠ k) :
    List.lookup q (l.filter (fun p => p.1 != k) ++ [(k, v)]) = List.lookup q l := by
  have hqk : (q == k) = false := beq_eq_false_iff_ne.mpr hne
  induction l with
  | nil =>
    simp [List.lookup, hqk]
  | cons a t ih =>
    obtain ⟨a1, a2⟩ := a
    by_cases ha : a1 = k
    · have hf : ((a1, a2).1 != k) = false := by simp [ha]
      have hq : (q == a1) = false := by
        apply beq_eq_false_iff_ne.mpr
        rw [ha]
        exact hne
      simp only [List.filter_cons, hf, Bool.false_eq_true, if_false, List.lookup, hq]
      exact ih
    · have ht : ((a1, a2).1 != k) = true := by simp [ha]
      simp only [List.filter_cons, ht, if_true, List.cons_append, List.lookup]
      by_cases hq : q = a1
      · have : (q == a1) = true := beq_iff_eq.mpr hq
        simp [this]
      · have : (q == a1) = false := beq_eq_false_iff_ne.mpr hq
        simp only [this]
        exact ih

/-- The header-list shape of `Header.Set` makes the key it sets found with
the value it sets. -/
theorem lookup_filterne_append_self {β : Type} (k : String) (v : β)
    (l : List (String × β)) :
    List.lookup k (l.filter (fun p => p.1 != k) ++ [(k, v)]) = some v := by
  induction l with
  | nil => simp [List.lookup]
  | cons a t ih =>
    obtain ⟨a1, a2⟩ := a
    by_cases ha : a1 = k
    · have hf : ((a1, a2).1 != k) = false := by simp [ha]
      simp only [List.filter_cons, hf, Bool.false_eq_true, if_false]
      exact ih
    · have ht : ((a1, a2).1 != k) = true := by simp [ha]
      have hk : (k == a1) = false := beq_eq_false_iff_ne.mpr (fun h => ha h.symm)
      simp only [List.filter_cons, ht, if_true, List.cons_append, List.lookup, hk]
      exact ih

/-- `Values.Set` really stores the single value under the key. -/
theorem lookup_Values_Set (v : Values) (key value : String) :
    List.lookup key (Values.Set v key value) = some [value] :=
  lookup_filterne_append_self key [value] v

/-- `Values.Get` after `Values.Set` returns the stored value. -/
theorem Values_Get_Set (v : Values) (key value : String) :
    Values.Get (Values.Set v key value) key = value := by
  simp [Values.Get, lookup_Values_Set]

/-- Signing preserves every header whose key is not `Authorization`. -/
theorem OAuthSign_preserves_other_headers (s : OAuthSigner) (r : Request)
    (q : String) (hq : q ≠ "Authorization") :
    List.lookup q (s.OAuthSign r).1.Header = List.lookup q r.Header := by
  cases s with
  | anonSigner => rfl
  | plainTextOAuthSigner token realm =>
    simp only [OAuthSigner.OAuthSign, Request.setHeader]
    exact lookup_filterne_append_ne _ _ _ _ hq

/-- `dispatchRequest` hands the transport exactly the signed request, on
every branch. -/
theorem dispatchRequest_sent (client : Client) (t : Transport) (r : Request) :
    (client.dispatchRequest t r).sent = [(client.Signer.OAuthSign r).1] := by
  simp only [Client.dispatchRequest]
  cases t ((client.Signer.OAuthSign r).1) with
  | doError msg => rfl
  | readError msg => rfl
  | success code status body =>
    by_cases h : code / 100 ≠ 2 <;> simp [h]

/-- Reference resolution keeps a non-empty query of the reference URI. -/
theorem resolveReference_rawQuery (u ref : URL) (h : ref.RawQuery ≠ "") :
    (u.resolveReference ref).RawQuery = ref.RawQuery := by
  unfold URL.resolveReference
  by_cases h1 : ref.Scheme ≠ "" ∨ ref.Host ≠ ""
  · simp only [h1, if_true]
    by_cases h2 : ref.Scheme = "" <;> simp [h2]
  · simp only [h1, if_false]
    have h3 : ¬ (ref.Path = "" ∧ ref.RawQuery = "") := fun hc => h hc.2
    simp only [h3, if_false]
    by_cases h2 : ref.Scheme = "" <;> simp [h2]

/-- Encoding the singleton map `op=<operation>` gives exactly that pair. -/
theorem Values_Encode_op_singleton (operation : String) :
    Values.Encode [("op", [operation])] = "op=" ++ queryEscape operation := by
  have h1 : queryEscape "op" = "op" := by decide
  simp only [Values.Encode, sortByKey, insertByKey, List.foldr, List.map, List.flatten,
    joinSep, h1]
  simp [String.append_assoc]

/-- The encoded `op` pair is never the empty string, whatever the
operation. -/
theorem Values_Encode_op_ne_empty (operation : String) :
    Values.Encode [("op", [operation])] ≠ "" := by
  rw [Values_Encode_op_singleton]
  intro h
  have : ("op=" ++ queryEscape operation).data = "".data := by rw [h]
  simp [String.data_append] at this

/-! ### Reduction lemmas for the verb methods -/

/-- `Get` past its checks, empty-operation case: a body-less GET on the
resolved URL carrying the encoded (unchanged) parameters. -/
theorem Get_eq_op_empty (client : Client) (transport : Transport) (URI : Gomaasapi.URL)
    (parameters : Values) (hop : Values.Get parameters "op" = "") :
    client.Get transport URI "" parameters =
      (let d := client.dispatchRequest transport
        { Method := "GET",
          URL := { client.GetURL URI with RawQuery := Values.Encode parameters },
          Header := [], Body := none }
       { body := d.body, error := d.error, sent := d.sent,
         parametersAfter := parameters }) := by
  simp [Client.Get, hop, newRequest]

/-- `Get` past its checks, non-empty-operation case: the operation is
injected under `op` before encoding, and the updated map is what the
caller's map has become. -/
theorem Get_eq_op_nonempty (client : Client) (transport : Transport)
    (URI : Gomaasapi.URL) (operation : String) (parameters : Values)
    (hop : Values.Get parameters "op" = "") (hoper : operation ≠ "") :
    client.Get transport URI operation parameters =
      (let d := client.dispatchRequest transport
        { Method := "GET",
          URL := { client.GetURL URI with
            RawQuery := Values.Encode (Values.Set parameters "op" operation) },
          Header := [], Body := none }
       { body := d.body, error := d.error, sent := d.sent,
         parametersAfter := Values.Set parameters "op" operation }) := by
  simp [Client.Get, hop, hoper, newRequest]

/-- `nonIdempotentRequest` dispatches the resolved URL with the encoded
parameters as body and the form content type. -/
theorem nonIdempotentRequest_eq (client : Client) (transport : Transport)
    (method : String) (URI : Gomaasapi.URL) (parameters : Values) :
    client.nonIdempotentRequest transport method URI parameters =
      client.dispatchRequest transport
        { Method := method, URL := client.GetURL URI,
          Header := [("Content-Type", "application/x-www-form-urlencoded")],
          Body := some (Values.Encode parameters) } := by
  simp [Client.nonIdempotentRequest, newRequest, Request.setHeader]

/-- `Delete` dispatches a DELETE with an empty body and forwards only the
error. -/
theorem Delete_eq (client : Client) (transport : Transport) (URI : Gomaasapi.URL) :
    client.Delete transport URI =
      (let d := client.dispatchRequest transport
        { Method := "DELETE", URL := client.GetURL URI, Header := [], Body := some "" }
       { error := d.error, sent := d.sent }) := by
  simp only [Client.Delete, newRequest]
  cases h : (client.dispatchRequest transport
      { Method := "DELETE", URL := client.GetURL URI, Header := [],
        Body := some "" }).error <;> simp [h]

/-- `dispatchRequest` against a completed exchange classifies the status
code by `code / 100 == 2`. -/
theorem dispatchRequest_success (client : Client) (code : Nat) (status body : String)
    (r : Request) :
    client.dispatchRequest (constSuccess code status body) r =
      if code / 100 ≠ 2 then
        { body := some body,
          error := some (.api ("Error requesting the MAAS server: " ++ status ++ ".")),
          sent := [(client.Signer.OAuthSign r).1] }
      else { body := some body, error := none, sent := [(client.Signer.OAuthSign r).1] } :=
  rfl

/-- `dispatchRequest` when `httpClient.Do` fails. -/
theorem dispatchRequest_doError (client : Client) (msg : String) (r : Request) :
    client.dispatchRequest (constDoError msg) r =
      { body := none, error := some (.transport msg),
        sent := [(client.Signer.OAuthSign r).1] } :=
  rfl

/-- `dispatchRequest` when reading the response body fails. -/
theorem dispatchRequest_readError (client : Client) (msg : String) (r : Request) :
    client.dispatchRequest (constReadError msg) r =
      { body := none, error := some (.transport msg),
        sent := [(client.Signer.OAuthSign r).1] } :=
  rfl

/-- `Get` against a completed exchange: the body is surfaced, and the
error is exactly the status classification. -/
theorem Get_const_success (client : Client) (URI : Gomaasapi.URL) (operation : String)
    (parameters : Values) (code : Nat) (status body : String)
    (hop : Values.Get parameters "op" = "") :
    (client.Get (constSuccess code status body) URI operation parameters).body
        = some body ∧
    (client.Get (constSuccess code status body) URI operation parameters).error =
      (if code / 100 ≠ 2 then
        some (Err.api ("Error requesting the MAAS server: " ++ status ++ "."))
      else none) := by
  by_cases hoper : operation = ""
  · subst hoper
    rw [Get_eq_op_empty client _ URI parameters hop]
    simp only [dispatchRequest_success]
    by_cases hc : code / 100 ≠ 2 <;> simp [hc]
  · rw [Get_eq_op_nonempty client _ URI operation parameters hop hoper]
    simp only [dispatchRequest_success]
    by_cases hc : code / 100 ≠ 2 <;> simp [hc]

/-- `Post` against a completed exchange. -/
theorem Post_const_success (client : Client) (URI : Gomaasapi.URL) (operation : String)
    (parameters : Values) (code : Nat) (status body : String) :
    (client.Post (constSuccess code status body) URI operation parameters).body
        = some body ∧
    (client.Post (constSuccess code status body) URI operation parameters).error =
      (if code / 100 ≠ 2 then
        some (Err.api ("Error requesting the MAAS server: " ++ status ++ "."))
      else none) := by
  simp only [Client.Post, nonIdempotentRequest_eq, dispatchRequest_success]
  by_cases hc : code / 100 ≠ 2 <;> simp [hc]

/-- `Put` against a completed exchange. -/
theorem Put_const_success (client : Client) (URI : Gomaasapi.URL)
    (parameters : Values) (code : Nat) (status body : String) :
    (client.Put (constSuccess code status body) URI parameters).body = some body ∧
    (client.Put (constSuccess code status body) URI parameters).error =
      (if code / 100 ≠ 2 then
        some (Err.api ("Error requesting the MAAS server: " ++ status ++ "."))
      else none) := by
  simp only [Client.Put, nonIdempotentRequest_eq, dispatchRequest_success]
  by_cases hc : code / 100 ≠ 2 <;> simp [hc]

/-- `Delete` against a completed exchange. -/
theorem Delete_const_success (client : Client) (URI : Gomaasapi.URL)
    (code : Nat) (status body : String) :
    (client.Delete (constSuccess code status body) URI).error =
      (if code / 100 ≠ 2 then
        some (Err.api ("Error requesting the MAAS server: " ++ status ++ "."))
      else none) := by
  rw [Delete_eq]
  simp only [dispatchRequest_success]
  by_cases hc : code / 100 ≠ 2 <;> simp [hc]

/-! ### Claim theorems -/

/-- `Get` when the transport fails uniformly: no body, the transport error. -/
theorem Get_transport_failure (client : Client) (URI : Gomaasapi.URL)
    (operation : String) (parameters : Values) (msg : String) (t : Transport)
    (hop : Values.Get parameters "op" = "")
    (ht : ∀ r, client.dispatchRequest t r =
      { body := none, error := some (.transport msg),
        sent := [(client.Signer.OAuthSign r).1] }) :
    (client.Get t URI operation parameters).body = none ∧
    (client.Get t URI operation parameters).error = some (.transport msg) := by
  by_cases hoper : operation = ""
  · subst hoper
    rw [Get_eq_op_empty client t URI parameters hop]
    simp [ht]
  · rw [Get_eq_op_nonempty client t URI operation parameters hop hoper]
    simp [ht]

/-- `Post` when the transport fails uniformly. -/
theorem Post_transport_failure (client : Client) (URI : Gomaasapi.URL)
    (operation : String) (parameters : Values) (msg : String) (t : Transport)
    (ht : ∀ r, client.dispatchRequest t r =
      { body := none, error := some (.transport msg),
        sent := [(client.Signer.OAuthSign r).1] }) :
    (client.Post t URI operation parameters).body = none ∧
    (client.Post t URI operation parameters).error = some (.transport msg) := by
  simp [Client.Post, nonIdempotentRequest_eq, ht]

/-- `Put` when the transport fails uniformly. -/
theorem Put_transport_failure (client : Client) (URI : Gomaasapi.URL)
    (parameters : Values) (msg : String) (t : Transport)
    (ht : ∀ r, client.dispatchRequest t r =
      { body := none, error := some (.transport msg),
        sent := [(client.Signer.OAuthSign r).1] }) :
    (client.Put t URI parameters).body = none ∧
    (client.Put t URI parameters).error = some (.transport msg) := by
  simp [Client.Put, nonIdempotentRequest_eq, ht]

/-- `Delete` when the transport fails uniformly. -/
theorem Delete_transport_failure (client : Client) (URI : Gomaasapi.URL)
    (msg : String) (t : Transport)
    (ht : ∀ r, client.dispatchRequest t r =
      { body := none, error := some (.transport msg),
        sent := [(client.Signer.OAuthSign r).1] }) :
    (client.Delete t URI).error = some (.transport msg) := by
  rw [Delete_eq]
  simp [ht]

/-- C8: for every request, the anonymous signer's sign operation succeeds
(returns no error) and leaves every part of the request (method, URL,
headers, body) unchanged. -/
theorem anonSigner_sign_identity (request : Request) :
    (OAuthSigner.anonSigner.OAuthSign request).2 = none ∧
    (OAuthSigner.anonSigner.OAuthSign request).1 = request :=
  ⟨rfl, rfl⟩

/-- C9: every `Post` call mutates the caller's resource URI in place: its
raw query becomes exactly the encoding of the single pair `op=<operation>`
(any pre-existing query is lost), and the change is still visible when the
call returns. -/
theorem post_mutates_caller_uri (client : Client) (transport : Transport)
    (URI : Gomaasapi.URL) (operation : String) (parameters : Values) :
    (client.Post transport URI operation parameters).uriAfter =
      { URI with RawQuery := "op=" ++ queryEscape operation } := by
  simp [Client.Post, Values_Encode_op_singleton]

/-- C10: every `Get` call with a non-empty operation string that passes
the reserved-key check mutates the caller's parameters map: afterwards it
contains the key `op` mapped to the operation string. -/
theorem get_mutates_caller_parameters (client : Client) (transport : Transport)
    (URI : Gomaasapi.URL) (operation : String) (parameters : Values)
    (hop : Values.Get parameters "op" = "") (hoper : operation ≠ "") :
    List.lookup "op" (client.Get transport URI operation parameters).parametersAfter
      = some [operation] ∧
    Values.Get (client.Get transport URI operation parameters).parametersAfter "op"
      = operation := by
  have h1 : (client.Get transport URI operation parameters).parametersAfter
      = Values.Set parameters "op" operation := by
    simp [Client.Get, hop, hoper, newRequest]
  rw [h1]
  exact ⟨lookup_Values_Set parameters "op" operation,
    Values_Get_Set parameters "op" operation⟩

/-- C10 witness at concrete inputs. -/
theorem get_mutates_caller_parameters_witness :
    List.lookup "op"
        (client₀.Get (constSuccess 200 "200 OK" "ok") uri₀ "list" []).parametersAfter
      = some ["list"] ∧
    Values.Get (client₀.Get (constSuccess 200 "200 OK" "ok") uri₀ "list" []).parametersAfter
        "op" = "list" :=
  get_mutates_caller_parameters client₀ (constSuccess 200 "200 OK" "ok") uri₀ "list" []
    (by decide) (by decide)

/-- C2 (amended): whenever the parameters carry a non-empty first value
under the reserved key `op`, `Get` fails with the invalid-argument error,
dispatches nothing, and leaves the parameters untouched — for every
transport. -/
theorem get_reserved_nonempty_rejected (client : Client) (transport : Transport)
    (URI : Gomaasapi.URL) (operation : String) (parameters : Values)
    (hop : Values.Get parameters "op" ≠ "") :
    client.Get transport URI operation parameters =
      { body := none, error := some (.invalidArgument reservedParamMessage),
        sent := [], parametersAfter := parameters } := by
  simp [Client.Get, hop]

/-- C2 (amended) witness at concrete inputs. -/
theorem get_reserved_nonempty_rejected_witness :
    client₀.Get (constSuccess 200 "200 OK" "ok") uri₀ "list" [("op", ["x"])] =
      { body := none, error := some (.invalidArgument reservedParamMessage),
        sent := [], parametersAfter := [("op", ["x"])] } :=
  get_reserved_nonempty_rejected client₀ (constSuccess 200 "200 OK" "ok") uri₀ "list"
    [("op", ["x"])] (by decide)

/-- C2 (counterexample): a parameter map that contains the reserved key
`op` — here with the empty string as its value — is NOT rejected: `Get`
returns no error at all and a request is dispatched, refuting the claim
that every parameter set containing the key fails with `InvalidArgument`
and no network activity. -/
theorem get_reserved_key_counterexample :
    (client₀.Get (constSuccess 200 "200 OK" "ok") uri₀ "list" [("op", [""])]).error
      = none ∧
    (client₀.Get (constSuccess 200 "200 OK" "ok") uri₀ "list" [("op", [""])]).sent
      ≠ [] := by
  constructor
  · rfl
  · decide

/-- C3: `NewAuthenticatedClient` fails with the invalid-argument error —
and hence returns no client — exactly when the API key does not contain
exactly two colons (equivalently, does not split into three fields); this
holds for every URL-parsing oracle, the check happening before parsing or
any network activity. -/
theorem newAuthenticatedClient_invalid_key_iff
    (parseURL : String → Except String Gomaasapi.URL) (BaseURL apiKey : String) :
    (NewAuthenticatedClient parseURL BaseURL apiKey =
        .error (.invalidArgument invalidAPIKeyMessage)) ↔
      apiKey.data.count ':' ≠ 2 := by
  have hcount := stringsSplit_length apiKey ':'
  unfold NewAuthenticatedClient
  generalize hgen : stringsSplit apiKey ':' = l
  rw [hgen] at hcount
  rcases l with _ | ⟨e0, _ | ⟨e1, _ | ⟨e2, _ | ⟨e3, rest⟩⟩⟩⟩
  · simp only [List.length_nil] at hcount
    omega
  · simp only [List.length_cons, List.length_nil] at hcount
    simp
    omega
  · simp only [List.length_cons, List.length_nil] at hcount
    simp
    omega
  · have h2 : apiKey.data.count ':' = 2 := by
      simp only [List.length_cons, List.length_nil] at hcount
      omega
    simp only [NewPLAINTEXTOAuthSigner, h2]
    cases hp : parseURL BaseURL <;> simp
  · have h3 : apiKey.data.count ':' ≠ 2 := by
      simp only [List.length_cons] at hcount
      omega
    simp [h3]

/-- C3 witness: a key with no colon is rejected with the exact
invalid-argument error. -/
theorem newAuthenticatedClient_invalid_key_witness :
    NewAuthenticatedClient (parseURLOk url₀) "http://example.com/MAAS/api/1.0/" "notakey" =
      .error (.invalidArgument invalidAPIKeyMessage) :=
  (newAuthenticatedClient_invalid_key_iff (parseURLOk url₀)
    "http://example.com/MAAS/api/1.0/" "notakey").mpr (by decide)

/-- C4: for every well-formed three-field API key, the OAuth token is
built with the first field as the (secret-wise unused) consumer key, the
consumer secret forced to the empty string, and the token key and secret
taken from the second and third fields; the PLAINTEXT signature derived
from that token is `%26<tokenSecret>`, independent of the first field. -/
theorem newAuthenticatedClient_token_fields
    (parseURL : String → Except String Gomaasapi.URL) (BaseURL apiKey : String)
    (e0 e1 e2 : String) (u : Gomaasapi.URL)
    (hsplit : stringsSplit apiKey ':' = [e0, e1, e2])
    (hparse : parseURL BaseURL = .ok u) :
    NewAuthenticatedClient parseURL BaseURL apiKey =
      .ok { BaseURL := u,
            Signer := .plainTextOAuthSigner
              { ConsumerKey := e0, ConsumerSecret := "", TokenKey := e1,
                TokenSecret := e2 } "MAAS API" } ∧
    plainTextSignature
      { ConsumerKey := e0, ConsumerSecret := "", TokenKey := e1, TokenSecret := e2 } =
      "%26" ++ e2 := by
  constructor
  · unfold NewAuthenticatedClient
    rw [hsplit]
    simp [NewPLAINTEXTOAuthSigner, hparse]
  · show (("" : String) ++ "%26") ++ e2 = "%26" ++ e2
    rfl

/-- C4 witness at a concrete key. -/
theorem newAuthenticatedClient_token_fields_witness :
    NewAuthenticatedClient (parseURLOk url₀) "http://example.com/MAAS/api/1.0/"
        "cons:key:sec" =
      .ok { BaseURL := url₀,
            Signer := .plainTextOAuthSigner
              { ConsumerKey := "cons", ConsumerSecret := "", TokenKey := "key",
                TokenSecret := "sec" } "MAAS API" } ∧
    plainTextSignature
      { ConsumerKey := "cons", ConsumerSecret := "", TokenKey := "key",
        TokenSecret := "sec" } = "%26" ++ "sec" :=
  newAuthenticatedClient_token_fields (parseURLOk url₀)
    "http://example.com/MAAS/api/1.0/" "cons:key:sec" "cons" "key" "sec" url₀
    (by decide) rfl

/-- C1: for every verb call whose HTTP exchange completes with status
`code`, status line `status` and body `body`: a code in `[200,299]` yields
the response body bytes and no error (for `Delete`, no error), and any
other code yields the response body bytes together with an API error
whose message contains the status text. -/
theorem verb_status_classification (client : Client) (URI : Gomaasapi.URL)
    (operation : String) (parameters : Values) (code : Nat) (status body : String)
    (hop : Values.Get parameters "op" = "") :
    ((200 ≤ code ∧ code ≤ 299) →
      (client.Get (constSuccess code status body) URI operation parameters).body
          = some body ∧
      (client.Get (constSuccess code status body) URI operation parameters).error
          = none ∧
      (client.Post (constSuccess code status body) URI operation parameters).body
          = some body ∧
      (client.Post (constSuccess code status body) URI operation parameters).error
          = none ∧
      (client.Put (constSuccess code status body) URI parameters).body = some body ∧
      (client.Put (constSuccess code status body) URI parameters).error = none ∧
      (client.Delete (constSuccess code status body) URI).error = none) ∧
    (¬ (200 ≤ code ∧ code ≤ 299) →
      ∃ pre post : String,
        (client.Get (constSuccess code status body) URI operation parameters).body
            = some body ∧
        (client.Get (constSuccess code status body) URI operation parameters).error
            = some (.api (pre ++ status ++ post)) ∧
        (client.Post (constSuccess code status body) URI operation parameters).body
            = some body ∧
        (client.Post (constSuccess code status body) URI operation parameters).error
            = some (.api (pre ++ status ++ post)) ∧
        (client.Put (constSuccess code status body) URI parameters).body = some body ∧
        (client.Put (constSuccess code status body) URI parameters).error
            = some (.api (pre ++ status ++ post)) ∧
        (client.Delete (constSuccess code status body) URI).error
            = some (.api (pre ++ status ++ post))) := by
  obtain ⟨hgb, hge⟩ :=
    Get_const_success client URI operation parameters code status body hop
  obtain ⟨hpb, hpe⟩ := Post_const_success client URI operation parameters code status body
  obtain ⟨hub, hue⟩ := Put_const_success client URI parameters code status body
  have hde := Delete_const_success client URI code status body
  constructor
  · intro h2
    have hc : ¬ (code / 100 ≠ 2) := by omega
    rw [if_neg hc] at hge hpe hue hde
    exact ⟨hgb, hge, hpb, hpe, hub, hue, hde⟩
  · intro h2
    have hc : code / 100 ≠ 2 := by omega
    rw [if_pos hc] at hge hpe hue hde
    exact ⟨"Error requesting the MAAS server: ", ".",
      hgb, hge, hpb, hpe, hub, hue, hde⟩

/-- C1 witness: with a 204 exchange the four verbs all succeed on concrete
inputs. -/
theorem verb_status_classification_witness :
    (client₀.Get (constSuccess 204 "204 No Content" "ok") uri₀ "list" []).body
        = some "ok" ∧
    (client₀.Get (constSuccess 204 "204 No Content" "ok") uri₀ "list" []).error
        = none ∧
    (client₀.Post (constSuccess 204 "204 No Content" "ok") uri₀ "list" []).body
        = some "ok" ∧
    (client₀.Post (constSuccess 204 "204 No Content" "ok") uri₀ "list" []).error
        = none ∧
    (client₀.Put (constSuccess 204 "204 No Content" "ok") uri₀ []).body = some "ok" ∧
    (client₀.Put (constSuccess 204 "204 No Content" "ok") uri₀ []).error = none ∧
    (client₀.Delete (constSuccess 204 "204 No Content" "ok") uri₀).error = none :=
  (verb_status_classification client₀ uri₀ "list" [] 204 "204 No Content" "ok" rfl).1
    (by omega)

/-- C7: for every verb call on which the transport fails — either the
connection itself (`Do`) or reading the response body — the error is
propagated to the caller with no body bytes. -/
theorem verb_transport_error (client : Client) (URI : Gomaasapi.URL)
    (operation : String) (parameters : Values) (msg : String)
    (hop : Values.Get parameters "op" = "") :
    ((client.Get (constDoError msg) URI operation parameters).body = none ∧
     (client.Get (constDoError msg) URI operation parameters).error
        = some (.transport msg)) ∧
    ((client.Get (constReadError msg) URI operation parameters).body = none ∧
     (client.Get (constReadError msg) URI operation parameters).error
        = some (.transport msg)) ∧
    ((client.Post (constDoError msg) URI operation parameters).body = none ∧
     (client.Post (constDoError msg) URI operation parameters).error
        = some (.transport msg)) ∧
    ((client.Post (constReadError msg) URI operation parameters).body = none ∧
     (client.Post (constReadError msg) URI operation parameters).error
        = some (.transport msg)) ∧
    ((client.Put (constDoError msg) URI parameters).body = none ∧
     (client.Put (constDoError msg) URI parameters).error = some (.transport msg)) ∧
    ((client.Put (constReadError msg) URI parameters).body = none ∧
     (client.Put (constReadError msg) URI parameters).error = some (.transport msg)) ∧
    (client.Delete (constDoError msg) URI).error = some (.transport msg) ∧
    (client.Delete (constReadError msg) URI).error = some (.transport msg) :=
  ⟨Get_transport_failure client URI operation parameters msg _ hop
      (dispatchRequest_doError client msg),
   Get_transport_failure client URI operation parameters msg _ hop
      (dispatchRequest_readError client msg),
   Post_transport_failure client URI operation parameters msg _
      (dispatchRequest_doError client msg),
   Post_transport_failure client URI operation parameters msg _
      (dispatchRequest_readError client msg),
   Put_transport_failure client URI parameters msg _
      (dispatchRequest_doError client msg),
   Put_transport_failure client URI parameters msg _
      (dispatchRequest_readError client msg),
   Delete_transport_failure client URI msg _ (dispatchRequest_doError client msg),
   Delete_transport_failure client URI msg _ (dispatchRequest_readError client msg)⟩

/-- C7 witness at concrete inputs. -/
theorem verb_transport_error_witness :
    ((client₀.Get (constDoError "connection refused") uri₀ "list" []).body = none ∧
     (client₀.Get (constDoError "connection refused") uri₀ "list" []).error
        = some (.transport "connection refused")) ∧
    ((client₀.Get (constReadError "connection refused") uri₀ "list" []).body = none ∧
     (client₀.Get (constReadError "connection refused") uri₀ "list" []).error
        = some (.transport "connection refused")) ∧
    ((client₀.Post (constDoError "connection refused") uri₀ "list" []).body = none ∧
     (client₀.Post (constDoError "connection refused") uri₀ "list" []).error
        = some (.transport "connection refused")) ∧
    ((client₀.Post (constReadError "connection refused") uri₀ "list" []).body = none ∧
     (client₀.Post (constReadError "connection refused") uri₀ "list" []).error
        = some (.transport "connection refused")) ∧
    ((client₀.Put (constDoError "connection refused") uri₀ []).body = none ∧
     (client₀.Put (constDoError "connection refused") uri₀ []).error
        = some (.transport "connection refused")) ∧
    ((client₀.Put (constReadError "connection refused") uri₀ []).body = none ∧
     (client₀.Put (constReadError "connection refused") uri₀ []).error
        = some (.transport "connection refused")) ∧
    (client₀.Delete (constDoError "connection refused") uri₀).error
        = some (.transport "connection refused") ∧
    (client₀.Delete (constReadError "connection refused") uri₀).error
        = some (.transport "connection refused") :=
  verb_transport_error client₀ uri₀ "list" [] "connection refused" rfl

/-- C5: every `Get` call that passes the reserved-key check dispatches one
body-less GET whose URL is the resource URI resolved against the base
address with the encoded parameters as its query string — the operation
injected under `op` when non-empty, the parameters left as supplied when
it is empty. -/
theorem get_request_url (client : Client) (transport : Transport)
    (URI : Gomaasapi.URL) (operation : String) (parameters : Values)
    (hop : Values.Get parameters "op" = "") :
    ∃ r : Request,
      (client.Get transport URI operation parameters).sent = [r] ∧
      r.Method = "GET" ∧ r.Body = none ∧
      (operation ≠ "" →
        r.URL = { client.GetURL URI with
          RawQuery := Values.Encode (Values.Set parameters "op" operation) }) ∧
      (operation = "" →
        r.URL = { client.GetURL URI with RawQuery := Values.Encode parameters }) := by
  by_cases hoper : operation = ""
  · subst hoper
    refine ⟨(client.Signer.OAuthSign
        { Method := "GET",
          URL := { client.GetURL URI with RawQuery := Values.Encode parameters },
          Header := [], Body := none }).1, ?_, ?_, ?_, ?_, ?_⟩
    · rw [Get_eq_op_empty client transport URI parameters hop]
      exact dispatchRequest_sent client transport _
    · exact (OAuthSign_preserves_request client.Signer _).1
    · exact (OAuthSign_preserves_request client.Signer _).2.2
    · intro h
      exact absurd rfl h
    · intro _
      exact (OAuthSign_preserves_request client.Signer _).2.1
  · refine ⟨(client.Signer.OAuthSign
        { Method := "GET",
          URL := { client.GetURL URI with
            RawQuery := Values.Encode (Values.Set parameters "op" operation) },
          Header := [], Body := none }).1, ?_, ?_, ?_, ?_, ?_⟩
    · rw [Get_eq_op_nonempty client transport URI operation parameters hop hoper]
      exact dispatchRequest_sent client transport _
    · exact (OAuthSign_preserves_request client.Signer _).1
    · exact (OAuthSign_preserves_request client.Signer _).2.2
    · intro _
      exact (OAuthSign_preserves_request client.Signer _).2.1
    · intro h
      exact absurd h hoper

/-- C5 witness at concrete inputs. -/
theorem get_request_url_witness :
    ∃ r : Request,
      (client₀.Get (constSuccess 200 "200 OK" "ok") uri₀ "list" []).sent = [r] ∧
      r.Method = "GET" ∧ r.Body = none ∧
      ("list" ≠ "" →
        r.URL = { client₀.GetURL uri₀ with
          RawQuery := Values.Encode (Values.Set [] "op" "list") }) ∧
      ("list" = "" →
        r.URL = { client₀.GetURL uri₀ with RawQuery := Values.Encode [] }) :=
  get_request_url client₀ (constSuccess 200 "200 OK" "ok") uri₀ "list" [] rfl

/-- C6: every `Post` call dispatches a POST whose URL query string is
exactly the encoded pair `op=<operation>` (whatever query the resource URI
carried before), whose body is the form-encoded parameters, and which
carries the form content-type header. -/
theorem post_request_construction (client : Client) (transport : Transport)
    (URI : Gomaasapi.URL) (operation : String) (parameters : Values) :
    ∃ r : Request,
      (client.Post transport URI operation parameters).sent = [r] ∧
      r.Method = "POST" ∧
      r.URL.RawQuery = "op=" ++ queryEscape operation ∧
      r.Body = some (Values.Encode parameters) ∧
      List.lookup "Content-Type" r.Header = some "application/x-www-form-urlencoded" := by
  refine ⟨(client.Signer.OAuthSign
      { Method := "POST",
        URL := client.GetURL { URI with RawQuery := Values.Encode [("op", [operation])] },
        Header := [("Content-Type", "application/x-www-form-urlencoded")],
        Body := some (Values.Encode parameters) }).1, ?_, ?_, ?_, ?_, ?_⟩
  · simp only [Client.Post, nonIdempotentRequest_eq]
    exact dispatchRequest_sent client transport _
  · exact (OAuthSign_preserves_request client.Signer _).1
  · rw [(OAuthSign_preserves_request client.Signer _).2.1]
    show (client.BaseURL.resolveReference
      { URI with RawQuery := Values.Encode [("op", [operation])] }).RawQuery = _
    rw [resolveReference_rawQuery _ _ (Values_Encode_op_ne_empty operation)]
    exact Values_Encode_op_singleton operation
  · exact (OAuthSign_preserves_request client.Signer _).2.2
  · rw [OAuthSign_preserves_other_headers client.Signer _ "Content-Type" (by decide)]
    rfl

end Gomaasapi
